import Mathlib

/-!
Verification of the `cs50.sql` module (class `SQL`, method `execute`) as a
shallow embedding in Lean 4.

The module wraps SQLAlchemy: `execute(text, **params)` renders each named
parameter as an inlined SQL literal (type-directed escaping in the nested
function `process` of `UserDefinedType.process_literal_param`), substitutes
the literals into the statement text, executes the resulting single string,
and classifies the outcome by a regex on the leading keyword
(`^\s*SELECT\s+`, `^\s*INSERT\s+`, `^\s*(?:DELETE|UPDATE)\s+`,
case-insensitive).  Integrity-constraint violations are caught and turned
into the return value `None`; every other exception is re-raised after its
`__cause__` is cleared.

The embedding models Python runtime values, the `isinstance` dispatch chain
(including Python's subtyping facts `bool <: int` and
`datetime.datetime <: datetime.date`), SQLAlchemy's default literal
processors (string escaping by quote doubling, decimal integers, `true` /
`false` booleans, `NULL`), and the database engine as an oracle mapping a
statement string to a run outcome.  Python floats are modelled by their
`repr` string, the exact text SQLAlchemy's float literal processor emits.
-/

deriving instance DecidableEq for Except

namespace CS50

/-- A Python runtime value as passed in `params`.  `vfloat` carries the
`repr` string of the float (the text its literal processor emits);
`vother` is a value of any unsupported class, tagged by its class name. -/
inductive Value where
  | vbool (b : Bool)
  | vdate (y m d : Nat)
  | vdatetime (y mo d h mi s : Nat)
  | vtime (h mi s : Nat)
  | vfloat (r : String)
  | vint (n : Int)
  | vstr (s : String)
  | vnull
  | vother (cls : String)
  deriving DecidableEq, Repr

/-! ## Decimal rendering of integers (SQLAlchemy `Integer().literal_processor`
emits `str(int(value))`, i.e. the decimal representation). -/

/-- The ASCII digit character for `d < 10`. -/
def digitChar (d : Nat) : Char := Char.ofNat (48 + d)

/-- Numeric value of an ASCII digit character. -/
def digitVal (c : Char) : Nat := c.toNat - 48

/-- Whether `c` is an ASCII decimal digit. -/
def isDigitChar (c : Char) : Bool := 48 ≤ c.toNat && c.toNat ≤ 57

/-- Decimal digits of `n`, most significant first, accumulator style.  The
first argument is fuel (structural recursion); any fuel at least `n` gives
the exact digits. -/
def natDigitsAux : Nat → Nat → List Char → List Char
  | 0, n, acc => digitChar n :: acc
  | fuel + 1, n, acc =>
      if n < 10 then digitChar n :: acc
      else natDigitsAux fuel (n / 10) (digitChar (n % 10) :: acc)

/-- Decimal digits of `n`, most significant first. -/
def natDigits (n : Nat) : List Char := natDigitsAux n n []

/-- Decimal representation of an integer, as Python `str(int)` renders it. -/
def intRepr (n : Int) : String :=
  if n < 0 then ⟨'-' :: natDigits n.natAbs⟩ else ⟨natDigits n.natAbs⟩

/-! ## String escaping (SQLAlchemy `String().literal_processor`: double every
single quote and wrap the result in single quotes). -/

/-- The single-quote character. -/
def quoteChar : Char := '\''

/-- Double every single quote in the character list. -/
def escapeChars : List Char → List Char
  | [] => []
  | c :: cs =>
      if c = quoteChar then quoteChar :: quoteChar :: escapeChars cs
      else c :: escapeChars cs

/-- Undo quote doubling: each doubled quote becomes one quote. -/
def unescapeChars : List Char → List Char
  | [] => []
  | [c] => [c]
  | c1 :: c2 :: cs =>
      if c1 = quoteChar ∧ c2 = quoteChar then quoteChar :: unescapeChars cs
      else c1 :: unescapeChars (c2 :: cs)

/-- SQLAlchemy's string literal processor: escape quotes, wrap in quotes. -/
def string_literal_processor (s : String) : String :=
  ⟨quoteChar :: (escapeChars s.data ++ [quoteChar])⟩

/-- SQLAlchemy's default boolean literal rendering. -/
def boolean_literal_processor (b : Bool) : String :=
  if b then "true" else "false"

/-! ## `strftime` renderings used by the source for temporal values. -/

/-- Zero-pad the decimal form of `n` on the left to width `w`. -/
def padZero (w : Nat) (n : Nat) : String :=
  let s := natDigits n
  ⟨List.replicate (w - s.length) '0' ++ s⟩

/-- `value.strftime("%Y-%m-%d")`. -/
def strftimeYmd (y m d : Nat) : String :=
  padZero 4 y ++ "-" ++ padZero 2 m ++ "-" ++ padZero 2 d

/-- `value.strftime("%H:%M:%S")`. -/
def strftimeHMS (h mi s : Nat) : String :=
  padZero 2 h ++ ":" ++ padZero 2 mi ++ ":" ++ padZero 2 s

/-- `value.strftime("%Y-%m-%d %H:%M:%S")`. -/
def strftimeYmdHMS (y mo d h mi s : Nat) : String :=
  strftimeYmd y mo d ++ " " ++ strftimeHMS h mi s

/-! ## The `isinstance` checks of the dispatch chain.

Python subtyping facts reflected here: `bool` is a subclass of `int`
(`isinstance(True, int)` is true), and `datetime.datetime` is a subclass of
`datetime.date` (`isinstance(datetime.datetime(...), datetime.date)` is
true). -/

def isinstance_bool : Value → Bool
  | .vbool _ => true
  | _ => false

/-- `isinstance(value, datetime.date)`: true for `datetime.datetime` too,
since `datetime.datetime` subclasses `datetime.date`. -/
def isinstance_date : Value → Bool
  | .vdate _ _ _ => true
  | .vdatetime _ _ _ _ _ _ => true
  | _ => false

def isinstance_datetime : Value → Bool
  | .vdatetime _ _ _ _ _ _ => true
  | _ => false

def isinstance_time : Value → Bool
  | .vtime _ _ _ => true
  | _ => false

def isinstance_float : Value → Bool
  | .vfloat _ => true
  | _ => false

/-- `isinstance(value, int)`: true for `bool` too, since Python's `bool`
subclasses `int`. -/
def isinstance_int : Value → Bool
  | .vbool _ => true
  | .vint _ => true
  | _ => false

def isinstance_str : Value → Bool
  | .vstr _ => true
  | _ => false

def isinstance_null : Value → Bool
  | .vnull => true
  | _ => false

/-! ## Field accessors used once a branch has been selected. -/

/-- The boolean payload (only used under `isinstance_bool`). -/
def as_bool : Value → Bool
  | .vbool b => b
  | _ => false

/-- `int(value)` for the integer branch; Python's `int(True) = 1`. -/
def as_int : Value → Int
  | .vbool b => if b then 1 else 0
  | .vint n => n
  | _ => 0

/-- The `repr` text of the float payload. -/
def as_floatRepr : Value → String
  | .vfloat r => r
  | _ => ""

/-- The string payload. -/
def as_str : Value → String
  | .vstr s => s
  | _ => ""

/-- `value.strftime("%Y-%m-%d")` on the date branch (a `datetime.datetime`
reaching this branch contributes only its date fields). -/
def as_strftimeYmd : Value → String
  | .vdate y m d => strftimeYmd y m d
  | .vdatetime y mo d _ _ _ => strftimeYmd y mo d
  | _ => ""

/-- `value.strftime("%Y-%m-%d %H:%M:%S")` on the datetime branch. -/
def as_strftimeYmdHMS : Value → String
  | .vdatetime y mo d h mi s => strftimeYmdHMS y mo d h mi s
  | _ => ""

/-- `value.strftime("%H:%M:%S")` on the time branch. -/
def as_strftimeHMS : Value → String
  | .vtime h mi s => strftimeHMS h mi s
  | _ => ""

/-- The nested function `process` of `UserDefinedType.process_literal_param`:
the `isinstance` if/elif chain of the source, in source order (bool, date,
datetime, time, float, int, str, Null), raising `RuntimeError("unsupported
value")` when no branch matches.  The Python-2-only `long` branch is dead
under Python 3 and omitted. -/
def process (value : Value) : Except String String :=
  if isinstance_bool value then
    .ok (boolean_literal_processor (as_bool value))
  else if isinstance_date value then
    .ok (string_literal_processor (as_strftimeYmd value))
  else if isinstance_datetime value then
    .ok (string_literal_processor (as_strftimeYmdHMS value))
  else if isinstance_time value then
    .ok (string_literal_processor (as_strftimeHMS value))
  else if isinstance_float value then
    .ok (as_floatRepr value)
  else if isinstance_int value then
    .ok (intRepr (as_int value))
  else if isinstance_str value then
    .ok (string_literal_processor (as_str value))
  else if isinstance_null value then
    .ok "NULL"
  else
    .error "unsupported value"

/-- A bound parameter value: a scalar, or a Python `list` of scalars
(`type(value) is list` in the source). -/
inductive Param where
  | scalar (v : Value)
  | plist (vs : List Value)
  deriving DecidableEq, Repr

/-- The list comprehension `[process(v) for v in value]`: render every
element, propagating the first `RuntimeError`. -/
def renderAll : List Value → Except String (List String)
  | [] => .ok []
  | v :: vs =>
      match process v with
      | .error e => .error e
      | .ok s =>
          match renderAll vs with
          | .error e => .error e
          | .ok ss => .ok (s :: ss)

/-- `UserDefinedType.process_literal_param`: a list is rendered elementwise
by `process` and joined with `", "` (Python `", ".join(...)`); anything
else goes to `process` directly. -/
def process_literal_param : Param → Except String String
  | .plist vs => (renderAll vs).map (String.intercalate ", ")
  | .scalar v => process v

/-- The supported scalar kinds as the spec lists them: boolean, date,
datetime, time, float, integer, text, null — everything except a value of
an unsupported class. -/
def supported_scalar_kind : Value → Bool
  | .vother _ => false
  | _ => true

/-! ## The database side.

A SQL value as the database returns it in a result row. -/
inductive SqlValue where
  | sBool (b : Bool)
  | sInt (n : Int)
  | sReal (r : String)
  | sText (s : String)
  | sNull
  deriving DecidableEq, Repr

/-- The Python value a fetched `SqlValue` comes back as. -/
def sqlToValue : SqlValue → Value
  | .sBool b => .vbool b
  | .sInt n => .vint n
  | .sReal r => .vfloat r
  | .sText s => .vstr s
  | .sNull => .vnull

/-- Parse a decimal digit string (most significant first). -/
def digitsVal (cs : List Char) : Nat :=
  cs.foldl (fun a c => 10 * a + digitVal c) 0

/-- Parse an optionally negated all-digit string as an integer. -/
def parseIntChars : List Char → Option Int
  | [] => none
  | c :: rest =>
      if c = '-' then
        if rest ≠ [] ∧ rest.all isDigitChar then some (-(digitsVal rest : Int))
        else none
      else if (c :: rest).all isDigitChar then some (Int.ofNat (digitsVal (c :: rest)))
      else none

/-- `e` (`+`|`-`) digits⁺ : the exponent part of a float `repr`. -/
def expPart : List Char → Bool
  | [] => false
  | [_] => false
  | c :: s :: ds =>
      if c = 'e' then (s = '+' || s = '-') && (ds ≠ []) && ds.all isDigitChar
      else false

/-- What may follow the integer digits of a float `repr`: a fractional
part `.`digits⁺ with an optional exponent, or an exponent directly.  (A
bare run of digits is an integer `repr`, not a float one.) -/
def fracExp : List Char → Bool
  | [] => false
  | c :: rest =>
      if c = '.' then
        (rest.takeWhile isDigitChar ≠ []) &&
          (rest.dropWhile isDigitChar = [] || expPart (rest.dropWhile isDigitChar))
      else expPart (c :: rest)

/-- digits⁺ followed by a fractional part and/or an exponent: the body of
a finite float `repr`. -/
def floatBody (cs : List Char) : Bool :=
  (cs.takeWhile isDigitChar ≠ []) && fracExp (cs.dropWhile isDigitChar)

/-- `floatReprChars cs`: an optional minus sign, then a finite float
body. -/
def floatReprChars : List Char → Bool
  | [] => false
  | c :: cs => if c = '-' then floatBody cs else floatBody (c :: cs)

/-- Whether `r` has the shape of the `repr` of a finite Python float: an
optional minus sign, digits, then a fractional part and/or a signed
exponent — e.g. `2.0`, `0.1`, `1e+16`, `1.5e-05` (a superset of the exact
`repr` grammar).  The non-finite floats `repr` as the bare words `inf`,
`-inf`, `nan`, which this shape deliberately excludes: they are not valid
SQL literals and are treated separately. -/
def isFloatRepr (r : String) : Bool := floatReprChars r.data

/-- The evaluation of a rendered literal, on its character list.  A quoted
literal is a text value (quote doubling undone); `NULL`, `true`, `false`
are the null and boolean values; an all-digit (optionally negated) literal
is an integer; a decimal-point literal is a real. -/
def selectBackChars : List Char → Option SqlValue
  | [] => none
  | c :: rest =>
      if c = quoteChar then
        match rest.getLast? with
        | some c' =>
            if c' = quoteChar ∧ rest ≠ [] then
              some (.sText ⟨unescapeChars rest.dropLast⟩)
            else none
        | none => none
      else if c :: rest = "NULL".data then some .sNull
      else if c :: rest = "true".data then some (.sBool true)
      else if c :: rest = "false".data then some (.sBool false)
      else
        match parseIntChars (c :: rest) with
        | some n => some (.sInt n)
        | none =>
            if floatReprChars (c :: rest) then some (.sReal ⟨c :: rest⟩)
            else none

/-- The value the database yields for `SELECT <lit>`. -/
def selectBack (lit : String) : Option SqlValue := selectBackChars lit.data

/-- The value that actually comes back from `SELECT <rendered literal>`:
booleans, integers, floats, text and null return identically; date and
time values return as their canonical rendered text; a datetime returns as
its date-only text, because the dispatch chain tests `datetime.date`
before `datetime.datetime` and `datetime.datetime` subclasses
`datetime.date`. -/
def reSelectedValue : Value → Value
  | .vdate y m d => .vstr (strftimeYmd y m d)
  | .vdatetime y mo d _ _ _ => .vstr (strftimeYmd y mo d)
  | .vtime h mi s => .vstr (strftimeHMS h mi s)
  | v => v

/-- `v` renders to a literal whose re-selection yields exactly
`reSelectedValue v`. -/
abbrev roundTrips (v : Value) : Prop :=
  ∃ lit, process v = Except.ok lit ∧
    (selectBack lit).map sqlToValue = some (reSelectedValue v)

/-! ## Statement classification.

The source classifies the compiled statement with
`re.search(r"^\s*KW\s+", statement, re.I)`. -/

/-- A regex `\s` whitespace character. -/
def isWsChar (c : Char) : Bool :=
  c = ' ' || c = '\t' || c = '\n' || c = '\r' || c = '\x0b' || c = '\x0c'

/-- Case-insensitive character match. -/
def charIEq (a b : Char) : Bool := a.toLower = b.toLower

/-- Whether `cs` starts with keyword `kw` (case-insensitive) followed by at
least one whitespace character. -/
def startsKeyword : List Char → List Char → Bool
  | [], c :: _ => isWsChar c
  | [], [] => false
  | _ :: _, [] => false
  | k :: ks, c :: cs => charIEq c k && startsKeyword ks cs

/-- `re.search(r"^\s*" + kw + r"\s+", statement, re.I)`: skip leading
whitespace, then the keyword, then at least one whitespace character. -/
def matchesKeyword (kw : String) (statement : String) : Bool :=
  startsKeyword kw.data (statement.data.dropWhile isWsChar)

/-! ## The engine oracle and `execute`. -/

/-- A Python exception: its class, message, and `__cause__` (modelled by
the cause's message, if any). -/
structure PyException where
  cls : String
  msg : String
  cause : Option String
  deriving DecidableEq, Repr

/-- `e.__cause__ = None` before re-raising. -/
def clearCause (e : PyException) : PyException := { e with cause := none }

/-- What the driver reports for one successful statement execution. -/
structure DBResult where
  /-- `result.fetchall()`, each row an ordered field-to-value mapping. -/
  rows : List (List (String × SqlValue))
  /-- `result.lastrowid`. -/
  lastrowid : Int
  /-- `result.rowcount`. -/
  rowcount : Nat
  deriving DecidableEq, Repr

/-- Outcome of `self.engine.execute(statement)`. -/
inductive RunOutcome where
  | success (r : DBResult)
  | integrityError (e : PyException)
  | failure (e : PyException)
  deriving DecidableEq, Repr

/-- The engine handle: its backend name and its response to each statement
string. -/
structure Engine where
  backend_name : String
  run : String → RunOutcome

/-- The value `execute` returns (when it does not raise). -/
inductive ExecValue where
  | rowsList (rs : List (List (String × SqlValue)))
  | insertedKey (k : SqlValue)
  | affected (n : Nat)
  | boolTrue
  | pyNone
  deriving DecidableEq, Repr

/-- The statement issued to retrieve the new primary key on postgresql. -/
def lastvalQuery : String := "SELECT LASTVAL()"

/-- The classification-and-return phase of `execute`, applied to the
compiled (fully inlined) statement, mirroring the source's try body from
`self.engine.execute(statement)` on, with both `except` clauses:
`IntegrityError` becomes the return value `None`; any other exception is
re-raised with its cause cleared.  On postgresql, INSERT triggers a second
engine call `SELECT LASTVAL()` and `result.first()[0]`; an empty result
there makes `first()` return Python `None` and the subscript raise a
`TypeError` (caught by the generic handler and re-raised, cause cleared). -/
def executeCompiled (eng : Engine) (statement : String) :
    Except PyException ExecValue :=
  match eng.run statement with
  | .integrityError _ => .ok .pyNone
  | .failure e => .error (clearCause e)
  | .success result =>
      if matchesKeyword "SELECT" statement then
        .ok (.rowsList result.rows)
      else if matchesKeyword "INSERT" statement then
        if eng.backend_name = "postgresql" then
          match eng.run lastvalQuery with
          | .integrityError _ => .ok .pyNone
          | .failure e => .error (clearCause e)
          | .success r2 =>
              match r2.rows with
              | [] =>
                  .error (clearCause
                    ⟨"TypeError", "NoneType object is not subscriptable", none⟩)
              | row :: _ =>
                  match row with
                  | [] =>
                      .error (clearCause ⟨"IndexError", "index out of range", none⟩)
                  | (_, v) :: _ => .ok (.insertedKey v)
        else .ok (.insertedKey (.sInt result.lastrowid))
      else if matchesKeyword "DELETE" statement || matchesKeyword "UPDATE" statement then
        .ok (.affected result.rowcount)
      else
        .ok .boolTrue

/-- Replace every occurrence of `pat` in the character list by `rep`, left
to right without overlap.  The fuel argument (any value at least the list
length) keeps the recursion structural. -/
def replaceGo (pat rep : List Char) : Nat → List Char → List Char
  | 0, s => s
  | fuel + 1, s =>
      match s with
      | [] => []
      | c :: rest =>
          if pat ≠ [] ∧ pat.isPrefixOf (c :: rest) then
            rep ++ replaceGo pat rep fuel ((c :: rest).drop pat.length)
          else c :: replaceGo pat rep fuel rest

/-- Inline one rendered parameter: every occurrence of `:key` in the text
is replaced by the literal (SQLAlchemy's `literal_binds` compilation of a
`bindparam`). -/
def substParam (text : String) (key lit : String) : String :=
  ⟨replaceGo (':' :: key.data) lit.data text.data.length text.data⟩

/-- Build the fully inlined statement string: render each parameter with
`process_literal_param` and substitute it.  A `RuntimeError` from rendering
escapes as the exception. -/
def compileStatement (text : String) (params : List (String × Param)) :
    Except String String :=
  params.foldlM
    (fun acc kp => (process_literal_param kp.2).map (substParam acc kp.1)) text

/-- `SQL.execute`: compile the statement (a rendering `RuntimeError` is
caught by the generic `except` and re-raised with its cause cleared), then
run and classify it. -/
def execute (eng : Engine) (text : String) (params : List (String × Param)) :
    Except PyException ExecValue :=
  match compileStatement text params with
  | .error msg => .error (clearCause ⟨"RuntimeError", msg, none⟩)
  | .ok statement => executeCompiled eng statement

/-! ## Helper lemmas: decimal digits. -/

theorem digitVal_digitChar {d : Nat} (h : d < 10) : digitVal (digitChar d) = d := by
  interval_cases d <;> decide

theorem isDigitChar_digitChar {d : Nat} (h : d < 10) :
    isDigitChar (digitChar d) = true := by
  interval_cases d <;> decide

theorem digit_ne {c c' : Char} (h : isDigitChar c = true)
    (h' : isDigitChar c' = false) : c ≠ c' := by
  intro e
  rw [e, h'] at h
  cases h

theorem natDigitsAux_fuel {fuel₁ fuel₂ n : Nat} (h₁ : n ≤ fuel₁) (h₂ : n ≤ fuel₂)
    (acc : List Char) : natDigitsAux fuel₁ n acc = natDigitsAux fuel₂ n acc := by
  induction fuel₁ generalizing fuel₂ n acc with
  | zero =>
      have hn : n = 0 := by omega
      subst hn
      cases fuel₂ with
      | zero => rfl
      | succ g => rw [natDigitsAux, natDigitsAux, if_pos (by omega)]
  | succ f ih =>
      cases fuel₂ with
      | zero =>
          have hn : n = 0 := by omega
          subst hn
          rw [natDigitsAux, natDigitsAux, if_pos (by omega)]
      | succ g =>
          rw [natDigitsAux, natDigitsAux]
          by_cases h : n < 10
          · rw [if_pos h, if_pos h]
          · rw [if_neg h, if_neg h]
            have hlt : n / 10 < n := Nat.div_lt_self (by omega) (by omega)
            exact ih (by omega) (by omega) _

theorem natDigitsAux_append {fuel n : Nat} (h : n ≤ fuel) (acc : List Char) :
    natDigitsAux fuel n acc = natDigitsAux fuel n [] ++ acc := by
  induction fuel generalizing n acc with
  | zero => rfl
  | succ f ih =>
      rw [natDigitsAux, natDigitsAux]
      by_cases hn : n < 10
      · rw [if_pos hn, if_pos hn]
        rfl
      · rw [if_neg hn, if_neg hn]
        have hlt : n / 10 < n := Nat.div_lt_self (by omega) (by omega)
        rw [ih (by omega) (digitChar (n % 10) :: acc), ih (by omega) [digitChar (n % 10)]]
        simp

/-- The recursion `natDigits` implements. -/
theorem natDigits_spec (n : Nat) :
    natDigits n =
      if n < 10 then [digitChar n]
      else natDigits (n / 10) ++ [digitChar (n % 10)] := by
  unfold natDigits
  by_cases h : n < 10
  · rw [if_pos h]
    cases n with
    | zero => rfl
    | succ m => rw [natDigitsAux, if_pos h]
  · rw [if_neg h]
    have hlt : n / 10 < n := Nat.div_lt_self (by omega) (by omega)
    cases n with
    | zero => omega
    | succ m =>
        rw [natDigitsAux, if_neg h]
        rw [natDigitsAux_fuel (by omega) (Nat.le_refl _) _,
          natDigitsAux_append (Nat.le_refl _)]

theorem natDigits_ne_nil (n : Nat) : natDigits n ≠ [] := by
  rw [natDigits_spec]
  by_cases h : n < 10
  · rw [if_pos h]
    simp
  · rw [if_neg h]
    simp

theorem natDigits_all_digit (n : Nat) : (natDigits n).all isDigitChar = true := by
  induction n using Nat.strong_induction_on with
  | _ n ih =>
    rw [natDigits_spec]
    by_cases h : n < 10
    · rw [if_pos h]
      simp [isDigitChar_digitChar h]
    · rw [if_neg h]
      have hlt : n / 10 < n := Nat.div_lt_self (by omega) (by omega)
      have hmod : n % 10 < 10 := Nat.mod_lt n (by omega)
      simp only [List.all_append, ih _ hlt, Bool.true_and, List.all_cons,
        List.all_nil, Bool.and_true]
      exact isDigitChar_digitChar hmod

theorem digitsVal_append (xs : List Char) (c : Char) :
    digitsVal (xs ++ [c]) = 10 * digitsVal xs + digitVal c := by
  simp [digitsVal, List.foldl_append]

theorem digitsVal_natDigits (n : Nat) : digitsVal (natDigits n) = n := by
  induction n using Nat.strong_induction_on with
  | _ n ih =>
    rw [natDigits_spec]
    by_cases h : n < 10
    · rw [if_pos h]
      simp [digitsVal, digitVal_digitChar h]
    · rw [if_neg h]
      have hlt : n / 10 < n := Nat.div_lt_self (by omega) (by omega)
      have hmod : n % 10 < 10 := Nat.mod_lt n (by omega)
      rw [digitsVal_append, ih _ hlt, digitVal_digitChar hmod]
      omega

theorem parseIntChars_intRepr (n : Int) : parseIntChars (intRepr n).data = some n := by
  by_cases hn : n < 0
  · have hdata : (intRepr n).data = '-' :: natDigits n.natAbs := by
      simp [intRepr, hn]
    rw [hdata, parseIntChars]
    rw [if_pos rfl, if_pos ⟨natDigits_ne_nil _, natDigits_all_digit _⟩,
      digitsVal_natDigits]
    congr 1
    omega
  · have hdata : (intRepr n).data = natDigits n.natAbs := by
      simp [intRepr, hn]
    obtain ⟨d, rest, hd⟩ := List.exists_cons_of_ne_nil (natDigits_ne_nil n.natAbs)
    have hdig : isDigitChar d = true := by
      have := natDigits_all_digit n.natAbs
      rw [hd] at this
      simp only [List.all_cons, Bool.and_eq_true] at this
      exact this.1
    rw [hdata, hd, parseIntChars]
    rw [if_neg (digit_ne hdig (by decide) : d ≠ '-'),
      if_pos (by rw [← hd]; exact natDigits_all_digit _)]
    rw [← hd, digitsVal_natDigits]
    congr 1
    rw [Int.ofNat_eq_coe]
    omega

/-! ## Helper lemmas: quote escaping. -/

theorem escapeChars_ne_nil {cs : List Char} (h : cs ≠ []) : escapeChars cs ≠ [] := by
  cases cs with
  | nil => exact absurd rfl h
  | cons c cs =>
      rw [escapeChars]
      split <;> simp

theorem unescapeChars_escapeChars (cs : List Char) :
    unescapeChars (escapeChars cs) = cs := by
  induction cs with
  | nil => rfl
  | cons c cs ih =>
    rw [escapeChars]
    by_cases hc : c = quoteChar
    · rw [if_pos hc, unescapeChars, if_pos ⟨rfl, rfl⟩, ih, hc]
    · rw [if_neg hc]
      cases hE : escapeChars cs with
      | nil =>
          have hnil : cs = [] := by
            by_contra hne
            exact escapeChars_ne_nil hne hE
          subst hnil
          rw [unescapeChars]
      | cons e E =>
          rw [unescapeChars, if_neg (fun he => hc he.1), ← hE, ih]

/-! ## Helper lemmas: evaluating rendered literals. -/

theorem ne_data_of_head_ne {c : Char} {rest : List Char} {s : String} {d : Char}
    {ds : List Char} (hs : s.data = d :: ds) (h : c ≠ d) : c :: rest ≠ s.data := by
  rw [hs]
  intro he
  injection he with h1 _
  exact h h1

theorem selectBack_string_literal (s : String) :
    selectBack (string_literal_processor s) = some (.sText s) := by
  show selectBackChars (quoteChar :: (escapeChars s.data ++ [quoteChar])) = _
  rw [selectBackChars, if_pos rfl, List.getLast?_concat]
  simp only [List.dropLast_concat, unescapeChars_escapeChars]
  rw [if_pos (by simp)]

/-- Dispatch of `selectBackChars` to the integer branch, for a character
list whose head is neither a quote nor the head of `NULL` / `true` /
`false`. -/
theorem selectBackChars_int {c : Char} {rest : List Char} {n : Int}
    (hq : c ≠ quoteChar) (hN : c ≠ 'N') (ht : c ≠ 't') (hf : c ≠ 'f')
    (hp : parseIntChars (c :: rest) = some n) :
    selectBackChars (c :: rest) = some (.sInt n) := by
  rw [selectBackChars, if_neg hq,
    if_neg (ne_data_of_head_ne rfl hN),
    if_neg (ne_data_of_head_ne rfl ht),
    if_neg (ne_data_of_head_ne rfl hf),
    hp]

theorem selectBack_intRepr (n : Int) : selectBack (intRepr n) = some (.sInt n) := by
  have hp := parseIntChars_intRepr n
  unfold selectBack
  by_cases hn : n < 0
  · have hdata : (intRepr n).data = '-' :: natDigits n.natAbs := by
      simp [intRepr, hn]
    rw [hdata] at hp ⊢
    exact selectBackChars_int (by decide) (by decide) (by decide) (by decide) hp
  · have hdata : (intRepr n).data = natDigits n.natAbs := by
      simp [intRepr, hn]
    obtain ⟨d, rest, hd⟩ := List.exists_cons_of_ne_nil (natDigits_ne_nil n.natAbs)
    have hdig : isDigitChar d = true := by
      have hall := natDigits_all_digit n.natAbs
      rw [hd] at hall
      simp only [List.all_cons, Bool.and_eq_true] at hall
      exact hall.1
    rw [hdata, hd] at hp ⊢
    exact selectBackChars_int (digit_ne hdig (by decide)) (digit_ne hdig (by decide))
      (digit_ne hdig (by decide)) (digit_ne hdig (by decide)) hp

theorem expPart_head {c : Char} {rest : List Char} (h : expPart (c :: rest) = true) :
    c = 'e' := by
  cases rest with
  | nil => cases h
  | cons s ds =>
      rw [expPart] at h
      by_cases hc : c = 'e'
      · exact hc
      · rw [if_neg hc] at h
        cases h

theorem fracExp_head_not_digit {c : Char} {rest : List Char}
    (h : fracExp (c :: rest) = true) : isDigitChar c = false := by
  rw [fracExp] at h
  by_cases hc : c = '.'
  · rw [hc]
    decide
  · rw [if_neg hc] at h
    rw [expPart_head h]
    decide

theorem floatBody_dropWhile {cs : List Char} (h : floatBody cs = true) :
    ∃ c rest, cs.dropWhile isDigitChar = c :: rest ∧ isDigitChar c = false := by
  unfold floatBody at h
  simp only [Bool.and_eq_true, decide_eq_true_eq] at h
  cases hdw : cs.dropWhile isDigitChar with
  | nil =>
      rw [hdw] at h
      exact absurd h.2 (by decide)
  | cons c rest =>
      rw [hdw] at h
      exact ⟨c, rest, rfl, fracExp_head_not_digit h.2⟩

theorem all_digit_false_of_floatBody {cs : List Char} (h : floatBody cs = true) :
    cs.all isDigitChar = false := by
  obtain ⟨c, rest, hdw, hnd⟩ := floatBody_dropWhile h
  have hsplit : cs = cs.takeWhile isDigitChar ++ cs.dropWhile isDigitChar :=
    (List.takeWhile_append_dropWhile _ _).symm
  rw [hsplit, List.all_append, hdw, List.all_cons, hnd]
  simp

theorem floatBody_head_digit {c : Char} {cs : List Char}
    (h : floatBody (c :: cs) = true) : isDigitChar c = true := by
  unfold floatBody at h
  simp only [Bool.and_eq_true, decide_eq_true_eq] at h
  have htw := h.1
  by_contra hc
  rw [List.takeWhile_cons_of_neg (by simpa using hc)] at htw
  exact htw rfl

theorem selectBack_floatRepr {r : String} (h : isFloatRepr r = true) :
    selectBack r = some (.sReal r) := by
  unfold isFloatRepr at h
  unfold selectBack
  cases hdata : r.data with
  | nil => rw [hdata] at h; cases h
  | cons c cs =>
      rw [hdata] at h
      rw [floatReprChars] at h
      have hmk : (⟨c :: cs⟩ : String) = r := by
        rw [← hdata]
      by_cases hc : c = '-'
      · rw [if_pos hc] at h
        have hall : cs.all isDigitChar = false := all_digit_false_of_floatBody h
        rw [selectBackChars, if_neg (by rw [hc]; decide),
          if_neg (ne_data_of_head_ne rfl (by rw [hc]; decide)),
          if_neg (ne_data_of_head_ne rfl (by rw [hc]; decide)),
          if_neg (ne_data_of_head_ne rfl (by rw [hc]; decide))]
        rw [parseIntChars, if_pos hc,
          if_neg (fun hand => by rw [hand.2] at hall; cases hall)]
        rw [if_pos (by rw [floatReprChars, if_pos hc]; exact h), hmk]
      · rw [if_neg hc] at h
        have hdig : isDigitChar c = true := floatBody_head_digit h
        have hall : (c :: cs).all isDigitChar = false := all_digit_false_of_floatBody h
        rw [selectBackChars, if_neg (digit_ne hdig (by decide)),
          if_neg (ne_data_of_head_ne rfl (digit_ne hdig (by decide))),
          if_neg (ne_data_of_head_ne rfl (digit_ne hdig (by decide))),
          if_neg (ne_data_of_head_ne rfl (digit_ne hdig (by decide)))]
        rw [parseIntChars, if_neg hc, if_neg (by rw [hall]; exact Bool.false_ne_true)]
        rw [if_pos (by rw [floatReprChars, if_neg hc]; exact h), hmk]

/-! ## The claims. -/

/-- C7: `process` produces an escaped literal exactly when the value is of
a supported scalar kind (boolean, date, datetime, time, float, integer,
text, or null); for a value of any other kind it raises
`RuntimeError("unsupported value")` instead of producing output. -/
theorem process_ok_iff_supported :
    (∀ v : Value, (∃ s, process v = Except.ok s) ↔ supported_scalar_kind v = true) ∧
    (∀ cls : String, process (Value.vother cls) = Except.error "unsupported value") := by
  constructor
  · intro v
    cases v with
    | vbool b => exact ⟨fun _ => rfl, fun _ => ⟨_, rfl⟩⟩
    | vdate y m d => exact ⟨fun _ => rfl, fun _ => ⟨_, rfl⟩⟩
    | vdatetime y mo d h mi s => exact ⟨fun _ => rfl, fun _ => ⟨_, rfl⟩⟩
    | vtime h mi s => exact ⟨fun _ => rfl, fun _ => ⟨_, rfl⟩⟩
    | vfloat r => exact ⟨fun _ => rfl, fun _ => ⟨_, rfl⟩⟩
    | vint n => exact ⟨fun _ => rfl, fun _ => ⟨_, rfl⟩⟩
    | vstr s => exact ⟨fun _ => rfl, fun _ => ⟨_, rfl⟩⟩
    | vnull => exact ⟨fun _ => rfl, fun _ => ⟨_, rfl⟩⟩
    | vother cls =>
        constructor
        · rintro ⟨s, hs⟩
          exact absurd hs (by simp [process, isinstance_bool, isinstance_date,
            isinstance_datetime, isinstance_time, isinstance_float, isinstance_int,
            isinstance_str, isinstance_null])
        · intro h
          cases h
  · intro cls
    rfl

/-- C10: the dispatch tests the boolean case before the integer case, so a
Python `bool` — for which `isinstance(value, int)` also holds, `bool`
being a subclass of `int` — is always rendered by the boolean literal
processor, never by the integer one (whose output differs). -/
theorem bool_dispatch_precedes_int :
    ∀ b : Bool,
      isinstance_int (Value.vbool b) = true ∧
      process (Value.vbool b) = Except.ok (boolean_literal_processor b) ∧
      boolean_literal_processor b ≠ intRepr (as_int (Value.vbool b)) := by
  intro b
  cases b with
  | false => exact ⟨rfl, rfl, by decide⟩
  | true => exact ⟨rfl, rfl, by decide⟩

/-- C9: a parameter whose value is a Python `list` is rendered by applying
the scalar dispatch `process` to each element and joining the rendered
literals with `", "`. -/
theorem process_literal_param_list (vs : List Value) (ss : List String)
    (h : renderAll vs = Except.ok ss) :
    process_literal_param (Param.plist vs) = Except.ok (String.intercalate ", " ss) ∧
    ss.length = vs.length ∧
    ∀ i (hv : i < vs.length) (hs : i < ss.length),
      process (vs.get ⟨i, hv⟩) = Except.ok (ss.get ⟨i, hs⟩) := by
  refine ⟨by simp [process_literal_param, h, Except.map], ?_⟩
  induction vs generalizing ss with
  | nil =>
      rw [renderAll] at h
      cases h
      exact ⟨rfl, fun i hv _ => absurd hv (by simp)⟩
  | cons v vs ih =>
      rw [renderAll] at h
      cases hpv : process v with
      | error e => rw [hpv] at h; cases h
      | ok s =>
          rw [hpv] at h
          cases hrv : renderAll vs with
          | error e => rw [hrv] at h; cases h
          | ok ss' =>
              rw [hrv] at h
              cases h
              obtain ⟨hlen, hidx⟩ := ih ss' hrv
              refine ⟨by simp [hlen], ?_⟩
              intro i hv hs
              cases i with
              | zero => exact hpv
              | succ j => exact hidx j (by simpa using hv) (by simpa using hs)

/-- C3 counterexample: the round-trip fails outright for temporal values
and for non-finite floats.  A `datetime.date` comes back as its text
rendering, not a date; a `datetime.datetime` is even rendered date-only
(the dispatch tests `datetime.date` first, and `datetime.datetime`
subclasses it), so its time component is lost; a `datetime.time` comes
back as text; and `float("inf")` renders as the bare word `inf`, which is
not a valid SQL literal, so selecting it back fails entirely. -/
theorem literal_roundtrip_fails_for_temporal :
    process (Value.vdate 2020 1 2) = Except.ok "'2020-01-02'" ∧
    (selectBack "'2020-01-02'").map sqlToValue ≠ some (Value.vdate 2020 1 2) ∧
    process (Value.vdatetime 2020 1 2 3 4 5) = Except.ok "'2020-01-02'" ∧
    (selectBack "'2020-01-02'").map sqlToValue ≠ some (Value.vdatetime 2020 1 2 3 4 5) ∧
    process (Value.vtime 3 4 5) = Except.ok "'03:04:05'" ∧
    (selectBack "'03:04:05'").map sqlToValue ≠ some (Value.vtime 3 4 5) ∧
    process (Value.vfloat "inf") = Except.ok "inf" ∧
    selectBack "inf" = none ∧
    (selectBack "inf").map sqlToValue ≠ some (Value.vfloat "inf") := by
  refine ⟨by decide, by decide, by decide, by decide, by decide, by decide,
    by decide, by decide, by decide⟩

/-- C3 (amended): rendering a supported scalar as an inlined literal and
selecting it back yields the same value for booleans, integers, text,
null, and every finite float (`repr` a decimal or exponent-form numeral);
a date or time value comes back as its canonical rendered text instead of
the original temporal value, and a datetime comes back as its date-only
rendered text (time lost), as `reSelectedValue` records; a non-finite
float (`repr` `inf`, `-inf` or `nan`) renders as a bare word that is not a
valid SQL literal, so selecting it back fails instead of yielding the
value. -/
theorem literal_roundtrip_amended :
    (∀ b : Bool, roundTrips (Value.vbool b)) ∧
    (∀ n : Int, roundTrips (Value.vint n)) ∧
    (∀ s : String, roundTrips (Value.vstr s)) ∧
    roundTrips Value.vnull ∧
    (∀ y m d : Nat, roundTrips (Value.vdate y m d)) ∧
    (∀ y mo d hh mi s : Nat, roundTrips (Value.vdatetime y mo d hh mi s)) ∧
    (∀ hh mi s : Nat, roundTrips (Value.vtime hh mi s)) ∧
    (∀ r : String, isFloatRepr r = true → roundTrips (Value.vfloat r)) ∧
    (∀ r : String, r = "inf" ∨ r = "-inf" ∨ r = "nan" →
      process (Value.vfloat r) = Except.ok r ∧ selectBack r = none) := by
  refine ⟨?_, ?_, ?_, ?_, ?_, ?_, ?_, ?_, ?_⟩
  · intro b
    cases b <;> exact ⟨_, rfl, by decide⟩
  · intro n
    refine ⟨_, rfl, ?_⟩
    rw [show as_int (Value.vint n) = n from rfl, selectBack_intRepr]
    rfl
  · intro s
    refine ⟨_, rfl, ?_⟩
    rw [show as_str (Value.vstr s) = s from rfl, selectBack_string_literal]
    rfl
  · exact ⟨_, rfl, by decide⟩
  · intro y m d
    refine ⟨_, rfl, ?_⟩
    rw [show as_strftimeYmd (Value.vdate y m d) = strftimeYmd y m d from rfl,
      selectBack_string_literal]
    rfl
  · intro y mo d hh mi s
    refine ⟨_, rfl, ?_⟩
    rw [show as_strftimeYmd (Value.vdatetime y mo d hh mi s) = strftimeYmd y mo d from rfl,
      selectBack_string_literal]
    rfl
  · intro hh mi s
    refine ⟨_, rfl, ?_⟩
    rw [show as_strftimeHMS (Value.vtime hh mi s) = strftimeHMS hh mi s from rfl,
      selectBack_string_literal]
    rfl
  · intro r hr
    refine ⟨r, rfl, ?_⟩
    rw [selectBack_floatRepr hr]
    rfl
  · rintro r (rfl | rfl | rfl) <;> exact ⟨rfl, by decide⟩

/-- Witness for the amended C3: the exponent-form finite float `1e+16`
round-trips, and the non-finite float `inf` fails to re-select. -/
theorem literal_roundtrip_amended_witness :
    isFloatRepr "1e+16" = true ∧
    roundTrips (Value.vfloat "1e+16") ∧
    (process (Value.vfloat "inf") = Except.ok "inf" ∧ selectBack "inf" = none) :=
  ⟨by decide,
    literal_roundtrip_amended.2.2.2.2.2.2.2.1 "1e+16" (by decide),
    literal_roundtrip_amended.2.2.2.2.2.2.2.2 "inf" (Or.inl rfl)⟩

/-- Witness for C9 at the list `[1, "a"]`. -/
theorem process_literal_param_list_witness :
    renderAll [Value.vint 1, Value.vstr "a"] = Except.ok ["1", "'a'"] ∧
    (process_literal_param (Param.plist [Value.vint 1, Value.vstr "a"]) =
        Except.ok (String.intercalate ", " ["1", "'a'"]) ∧
      (["1", "'a'"] : List String).length = ([Value.vint 1, Value.vstr "a"] : List Value).length ∧
      ∀ i (hv : i < ([Value.vint 1, Value.vstr "a"] : List Value).length)
        (hs : i < (["1", "'a'"] : List String).length),
        process (([Value.vint 1, Value.vstr "a"] : List Value).get ⟨i, hv⟩) =
          Except.ok ((["1", "'a'"] : List String).get ⟨i, hs⟩)) :=
  ⟨by decide, process_literal_param_list [Value.vint 1, Value.vstr "a"] ["1", "'a'"] (by decide)⟩

/-- C1: when the compiled statement matches the SELECT classification and
the engine executes it successfully, `execute` returns the fetched rows as
a list of field-to-value mappings — the empty list when no rows match. -/
theorem execute_select_returns_rows (eng : Engine) (text : String)
    (params : List (String × Param)) (statement : String) (result : DBResult)
    (hc : compileStatement text params = Except.ok statement)
    (hsel : matchesKeyword "SELECT" statement = true)
    (hrun : eng.run statement = RunOutcome.success result) :
    execute eng text params = Except.ok (ExecValue.rowsList result.rows) ∧
    (result.rows = [] → execute eng text params = Except.ok (ExecValue.rowsList [])) := by
  have hmain : execute eng text params = Except.ok (ExecValue.rowsList result.rows) := by
    simp [execute, hc, executeCompiled, hrun, hsel]
  exact ⟨hmain, fun he => by rw [hmain, he]⟩

/-- Witness for C1: a SELECT with one inlined parameter, over an engine
returning one row, and a no-match SELECT returning the empty list. -/
theorem execute_select_returns_rows_witness :
    compileStatement "SELECT * FROM t WHERE x = :x"
        [("x", Param.scalar (Value.vint 5))] =
      Except.ok "SELECT * FROM t WHERE x = 5" ∧
    matchesKeyword "SELECT" "SELECT * FROM t WHERE x = 5" = true ∧
    (execute
        (Engine.mk "sqlite"
          (fun _ => RunOutcome.success ⟨[[("a", SqlValue.sInt 1)]], 0, 0⟩))
        "SELECT * FROM t WHERE x = :x" [("x", Param.scalar (Value.vint 5))] =
      Except.ok (ExecValue.rowsList [[("a", SqlValue.sInt 1)]]) ∧
      ([[("a", SqlValue.sInt 1)]] = ([] : List (List (String × SqlValue))) →
        execute
          (Engine.mk "sqlite"
            (fun _ => RunOutcome.success ⟨[[("a", SqlValue.sInt 1)]], 0, 0⟩))
          "SELECT * FROM t WHERE x = :x" [("x", Param.scalar (Value.vint 5))] =
        Except.ok (ExecValue.rowsList []))) :=
  ⟨by decide, by decide,
    execute_select_returns_rows
      (Engine.mk "sqlite"
        (fun _ => RunOutcome.success ⟨[[("a", SqlValue.sInt 1)]], 0, 0⟩))
      "SELECT * FROM t WHERE x = :x" [("x", Param.scalar (Value.vint 5))]
      "SELECT * FROM t WHERE x = 5" ⟨[[("a", SqlValue.sInt 1)]], 0, 0⟩
      (by decide) (by decide) rfl⟩

/-- C2: an integrity-constraint violation raised by the engine (for
example a duplicate-key INSERT) is caught, and `execute` returns `None`
instead of propagating the exception. -/
theorem execute_integrity_violation_returns_none (eng : Engine) (text : String)
    (params : List (String × Param)) (statement : String) (e : PyException)
    (hc : compileStatement text params = Except.ok statement)
    (hrun : eng.run statement = RunOutcome.integrityError e) :
    execute eng text params = Except.ok ExecValue.pyNone := by
  simp [execute, hc, executeCompiled, hrun]

/-- Witness for C2: a duplicate-key INSERT on an engine raising
`IntegrityError`. -/
theorem execute_integrity_violation_returns_none_witness :
    compileStatement "INSERT INTO t VALUES (:v)" [("v", Param.scalar (Value.vint 1))] =
      Except.ok "INSERT INTO t VALUES (1)" ∧
    execute
        (Engine.mk "sqlite"
          (fun _ => RunOutcome.integrityError
            ⟨"IntegrityError", "UNIQUE constraint failed", none⟩))
        "INSERT INTO t VALUES (:v)" [("v", Param.scalar (Value.vint 1))] =
      Except.ok ExecValue.pyNone :=
  ⟨by decide,
    execute_integrity_violation_returns_none
      (Engine.mk "sqlite"
        (fun _ => RunOutcome.integrityError
          ⟨"IntegrityError", "UNIQUE constraint failed", none⟩))
      "INSERT INTO t VALUES (:v)" [("v", Param.scalar (Value.vint 1))]
      "INSERT INTO t VALUES (1)"
      ⟨"IntegrityError", "UNIQUE constraint failed", none⟩
      (by decide) rfl⟩

/-- C4: a statement classified as INSERT returns the newly generated
primary key: on a postgresql backend via the follow-up `SELECT LASTVAL()`
query (first column of its first row), otherwise via the driver's
`lastrowid`. -/
theorem execute_insert_returns_key (eng : Engine) (text : String)
    (params : List (String × Param)) (statement : String) (result : DBResult)
    (hc : compileStatement text params = Except.ok statement)
    (hnotsel : matchesKeyword "SELECT" statement = false)
    (hins : matchesKeyword "INSERT" statement = true)
    (hrun : eng.run statement = RunOutcome.success result) :
    (eng.backend_name ≠ "postgresql" →
      execute eng text params =
        Except.ok (ExecValue.insertedKey (SqlValue.sInt result.lastrowid))) ∧
    (eng.backend_name = "postgresql" →
      ∀ (r2 : DBResult) (f : String) (k : SqlValue)
        (row : List (String × SqlValue)) (rest : List (List (String × SqlValue))),
        eng.run lastvalQuery = RunOutcome.success r2 →
        r2.rows = ((f, k) :: row) :: rest →
        execute eng text params = Except.ok (ExecValue.insertedKey k)) := by
  constructor
  · intro hb
    simp [execute, hc, executeCompiled, hrun, hnotsel, hins, hb]
  · intro hb r2 f k row rest h2 hrows
    simp [execute, hc, executeCompiled, hrun, hnotsel, hins, hb, h2, hrows]

/-- Witness for C4: the same INSERT against a sqlite-like backend
(driver `lastrowid`) and a postgresql backend (`SELECT LASTVAL()`). -/
theorem execute_insert_returns_key_witness :
    (execute (Engine.mk "sqlite" (fun _ => RunOutcome.success ⟨[], 7, 0⟩))
        "INSERT INTO t VALUES (1)" [] =
      Except.ok (ExecValue.insertedKey (SqlValue.sInt 7))) ∧
    (execute
        (Engine.mk "postgresql"
          (fun s =>
            if s = lastvalQuery then RunOutcome.success ⟨[[("lastval", SqlValue.sInt 99)]], 0, 0⟩
            else RunOutcome.success ⟨[], 0, 0⟩))
        "INSERT INTO t VALUES (1)" [] =
      Except.ok (ExecValue.insertedKey (SqlValue.sInt 99))) :=
  ⟨(execute_insert_returns_key
        (Engine.mk "sqlite" (fun _ => RunOutcome.success ⟨[], 7, 0⟩))
        "INSERT INTO t VALUES (1)" [] "INSERT INTO t VALUES (1)" ⟨[], 7, 0⟩
        (by decide) (by decide) (by decide) rfl).1 (by decide),
    (execute_insert_returns_key
        (Engine.mk "postgresql"
          (fun s =>
            if s = lastvalQuery then
              RunOutcome.success ⟨[[("lastval", SqlValue.sInt 99)]], 0, 0⟩
            else RunOutcome.success ⟨[], 0, 0⟩))
        "INSERT INTO t VALUES (1)" [] "INSERT INTO t VALUES (1)" ⟨[], 0, 0⟩
        (by decide) (by decide) (by decide) (by decide)).2 rfl
      ⟨[[("lastval", SqlValue.sInt 99)]], 0, 0⟩ "lastval" (SqlValue.sInt 99) [] []
      (by decide) rfl⟩

/-- C5: a statement classified as UPDATE or DELETE returns the affected
row count the driver reports — `0` when no row matched. -/
theorem execute_update_delete_returns_rowcount (eng : Engine) (text : String)
    (params : List (String × Param)) (statement : String) (result : DBResult)
    (hc : compileStatement text params = Except.ok statement)
    (hnotsel : matchesKeyword "SELECT" statement = false)
    (hnotins : matchesKeyword "INSERT" statement = false)
    (hdu : (matchesKeyword "DELETE" statement || matchesKeyword "UPDATE" statement) = true)
    (hrun : eng.run statement = RunOutcome.success result) :
    execute eng text params = Except.ok (ExecValue.affected result.rowcount) ∧
    (result.rowcount = 0 →
      execute eng text params = Except.ok (ExecValue.affected 0)) := by
  have hmain : execute eng text params = Except.ok (ExecValue.affected result.rowcount) := by
    simp [execute, hc, executeCompiled, hrun, hnotsel, hnotins, hdu]
  exact ⟨hmain, fun he => by rw [hmain, he]⟩

/-- Witness for C5: a DELETE affecting 3 rows and an UPDATE matching no
row (count 0). -/
theorem execute_update_delete_returns_rowcount_witness :
    (execute (Engine.mk "sqlite" (fun _ => RunOutcome.success ⟨[], 0, 3⟩))
        "DELETE FROM t" [] =
      Except.ok (ExecValue.affected 3)) ∧
    (execute (Engine.mk "sqlite" (fun _ => RunOutcome.success ⟨[], 0, 0⟩))
        "UPDATE t SET x = 1 WHERE 0 = 1" [] =
      Except.ok (ExecValue.affected 0)) :=
  ⟨(execute_update_delete_returns_rowcount
      (Engine.mk "sqlite" (fun _ => RunOutcome.success ⟨[], 0, 3⟩))
      "DELETE FROM t" [] "DELETE FROM t" ⟨[], 0, 3⟩
      (by decide) (by decide) (by decide) (by decide) rfl).1,
    (execute_update_delete_returns_rowcount
      (Engine.mk "sqlite" (fun _ => RunOutcome.success ⟨[], 0, 0⟩))
      "UPDATE t SET x = 1 WHERE 0 = 1" [] "UPDATE t SET x = 1 WHERE 0 = 1" ⟨[], 0, 0⟩
      (by decide) (by decide) (by decide) (by decide) rfl).2 rfl⟩

/-- C6: a statement classified as none of SELECT, INSERT, UPDATE, DELETE
that executes without raising returns the boolean `True`. -/
theorem execute_other_returns_true (eng : Engine) (text : String)
    (params : List (String × Param)) (statement : String) (result : DBResult)
    (hc : compileStatement text params = Except.ok statement)
    (hnotsel : matchesKeyword "SELECT" statement = false)
    (hnotins : matchesKeyword "INSERT" statement = false)
    (hnotdel : matchesKeyword "DELETE" statement = false)
    (hnotupd : matchesKeyword "UPDATE" statement = false)
    (hrun : eng.run statement = RunOutcome.success result) :
    execute eng text params = Except.ok ExecValue.boolTrue := by
  simp [execute, hc, executeCompiled, hrun, hnotsel, hnotins, hnotdel, hnotupd]

/-- Witness for C6: a CREATE TABLE statement. -/
theorem execute_other_returns_true_witness :
    execute (Engine.mk "sqlite" (fun _ => RunOutcome.success ⟨[], 0, 0⟩))
        "CREATE TABLE t (x INTEGER)" [] =
      Except.ok ExecValue.boolTrue :=
  execute_other_returns_true
    (Engine.mk "sqlite" (fun _ => RunOutcome.success ⟨[], 0, 0⟩))
    "CREATE TABLE t (x INTEGER)" [] "CREATE TABLE t (x INTEGER)" ⟨[], 0, 0⟩
    (by decide) (by decide) (by decide) (by decide) (by decide) rfl

/-- C8: every execution failure other than an integrity violation is
re-raised with its exception-chaining cause cleared, and these are the
only failure modes: whenever `execute` raises, the raised exception's
cause is `None` (integrity violations having already been converted to
the `None` return). -/
theorem execute_failure_reraised_without_cause (eng : Engine) (text : String)
    (params : List (String × Param)) :
    (∀ (statement : String) (e : PyException),
      compileStatement text params = Except.ok statement →
      eng.run statement = RunOutcome.failure e →
      execute eng text params = Except.error { e with cause := none }) ∧
    (∀ e : PyException, execute eng text params = Except.error e →
      e.cause = none) := by
  constructor
  · intro statement e hc hrun
    simp [execute, hc, executeCompiled, hrun, clearCause]
  · intro e he
    unfold execute at he
    split at he
    · cases he
      rfl
    · unfold executeCompiled at he
      split at he
      · cases he
      · cases he
        rfl
      · split at he
        · cases he
        · split at he
          · split at he
            · split at he
              · cases he
              · cases he
                rfl
              · split at he
                · cases he
                  rfl
                · split at he
                  · cases he
                    rfl
                  · cases he
            · cases he
          · split at he
            · cases he
            · cases he

/-- Witness for C8: a syntactically bad statement whose execution fails
with an `OperationalError` carrying a cause; `execute` re-raises it with
the cause cleared. -/
theorem execute_failure_reraised_without_cause_witness :
    compileStatement "SELEKT 1" [] = Except.ok "SELEKT 1" ∧
    (execute
        (Engine.mk "sqlite"
          (fun _ => RunOutcome.failure
            ⟨"OperationalError", "near SELEKT: syntax error", some "warning"⟩))
        "SELEKT 1" [] =
      Except.error ⟨"OperationalError", "near SELEKT: syntax error", none⟩) :=
  ⟨by decide,
    (execute_failure_reraised_without_cause
        (Engine.mk "sqlite"
          (fun _ => RunOutcome.failure
            ⟨"OperationalError", "near SELEKT: syntax error", some "warning"⟩))
        "SELEKT 1" []).1 "SELEKT 1"
      ⟨"OperationalError", "near SELEKT: syntax error", some "warning"⟩
      (by decide) rfl⟩

end CS50
